import Mathlib

/-!
# Verification of the pymempool core against its specification

Shallow embedding of the algorithmic core of the `pymempool` library:
the fee-recommendation engine (`recommended_fees.py`), the `median`
helper (`utils.py`), the difficulty-adjustment and halving estimators
(`difficulty_adjustment.py`, `halving.py`), the multi-endpoint request
dispatcher (`api.py`) and the websocket reconnect loop (`websocket.py`).

Python numbers (ints and floats) are modelled as `ℤ` / `ℚ`; dictionaries
with a fixed set of probed keys are modelled as structures with `Option`
fields (`none` = key absent); in-place mutation is modelled by explicit
state passing; exceptions raised by the dispatcher are modelled by a
sum-like result type.
-/

namespace Pymempool

/-! ## utils.median

Python's `median(a)` first sorts `a` in place (`a.sort()`), then returns the
middle element for odd length, and the mean of the two central elements for
even length.  The pair returned here is (the list after the in-place sort,
the returned median).  Indexing out of range (possible only for the empty
list, where Python raises `IndexError`) is modelled with `getD _ 0`. -/

def median (a : List ℚ) : List ℚ × ℚ :=
  let n := a.length
  let s := List.insertionSort (fun x y => x ≤ y) a
  if n % 2 = 0 then
    (s, (s.getD (n / 2) 0 + s.getD (n / 2 - 1) 0) / 2)
  else
    (s, s.getD (n / 2) 0)

/-! ## recommended_fees.py: module-level constants -/

def DEFAULT_FEE : ℚ := 1
def MAX_MEMPOOL_MB : ℚ := 300
def SMALL_BLOCK_SIZE : ℚ := 500000
def MEDIUM_BLOCK_SIZE : ℚ := 950000
def MEMPOOL_SIZE_MULTIPLIER : ℚ := 399 / 100
def BLOCK_SIZE_DIVISOR : ℚ := 1000000
def KB_TO_MB : ℚ := 1024 * 1024
def KB_TO_GB : ℚ := 1024 * 1024 * 1024
def DEFAULT_FEE_BLOCKS : Nat := 5

/-- One mempool block projection (an element of `mempool_blocks_fee`). -/
structure MempoolBlock where
  blockVSize : ℚ
  nTx : ℤ
  medianFee : ℚ
  feeRange : List ℚ
  totalFees : ℚ
deriving DecidableEq

/-- The recommended-fees snapshot dictionary, restricted to the five keys
`update_recommended_fees` probes; `none` models an absent key. -/
structure RecFeesDict where
  hourFee : Option ℚ
  halfHourFee : Option ℚ
  fastestFee : Option ℚ
  economy_fee : Option ℚ
  minimumFee : Option ℚ
deriving DecidableEq

/-- The empty snapshot dictionary (all five keys absent). -/
def RecFeesDict.empty : RecFeesDict := ⟨none, none, none, none, none⟩

/-- The mutable attribute state of a `RecommendedFees` instance. -/
structure FeeState where
  mempool_blocks_fee : Option (List MempoolBlock)
  hour_fee : Option ℚ
  half_hour_fee : Option ℚ
  fastest_fee : Option ℚ
  economy_fee : Option ℚ
  minimum_fee : ℚ
  default_fee : ℚ
  n_fee_blocks : Nat
  mempool_vsize : ℚ
  mempool_size_mb : ℚ
  mempool_size_gb : ℚ
  mempool_tx_count : ℤ
  mempool_blocks : ℤ
  max_mempool_mb : ℚ
deriving DecidableEq

/-- The attribute values set at the top of `RecommendedFees.__init__`,
before the two update calls. -/
def initFeeState : FeeState :=
  { mempool_blocks_fee := none
    hour_fee := none
    half_hour_fee := none
    fastest_fee := none
    economy_fee := none
    minimum_fee := DEFAULT_FEE
    default_fee := DEFAULT_FEE
    n_fee_blocks := DEFAULT_FEE_BLOCKS
    mempool_vsize := 0
    mempool_size_mb := 0
    mempool_size_gb := 0
    mempool_tx_count := 0
    mempool_blocks := 0
    max_mempool_mb := MAX_MEMPOOL_MB }

/-- `d.get(key, old)`: the key's value when present, otherwise `old`. -/
def getOr (v : Option ℚ) (old : Option ℚ) : Option ℚ :=
  match v with
  | some x => some x
  | none => old

/-- `RecommendedFees.update_recommended_fees`.  Python early-returns when the
argument is `None` or an empty dict; an empty dict is modelled by
`some RecFeesDict.empty`, on which the field-by-field update below is also
the identity, so both falsy cases leave the state unchanged. -/
def update_recommended_fees (st : FeeState) (recommended_fees : Option RecFeesDict) :
    FeeState :=
  match recommended_fees with
  | none => st
  | some r =>
    { st with
      hour_fee := getOr r.hourFee st.hour_fee
      half_hour_fee := getOr r.halfHourFee st.half_hour_fee
      fastest_fee := getOr r.fastestFee st.fastest_fee
      economy_fee := getOr r.economy_fee st.economy_fee
      minimum_fee := r.minimumFee.getD st.minimum_fee }

/-- The `use_fee` computed at the top of `optimize_median_fee`: the median
fee blended with the previous tier's fee by simple average when one is
supplied, the raw median fee otherwise. -/
def use_fee_of (p_block : MempoolBlock) (previous_fee : Option ℚ) : ℚ :=
  match previous_fee with
  | some pf => (p_block.medianFee + pf) / 2
  | none => p_block.medianFee

/-- `RecommendedFees.optimize_median_fee`. -/
def optimize_median_fee (st : FeeState) (p_block : MempoolBlock)
    (next_block : Option MempoolBlock := none) (previous_fee : Option ℚ := none) : ℚ :=
  let use_fee := use_fee_of p_block previous_fee
  if p_block.blockVSize ≤ SMALL_BLOCK_SIZE then
    st.default_fee
  else if p_block.blockVSize ≤ MEDIUM_BLOCK_SIZE ∧ next_block = none then
    max (use_fee * ((p_block.blockVSize - SMALL_BLOCK_SIZE) / SMALL_BLOCK_SIZE))
      st.default_fee
  else
    use_fee

/-- The loop body of `RecommendedFees._calculate_mempool_stats`, with the
running accumulators `vsize`, `count` and `minimum_fee` made explicit;
the final `max` with `default_fee` is the statement after the loop.
`block["feeRange"][0]` is modelled by `headD 0` (Python raises `IndexError`
on an empty `feeRange`; theorems below assume non-empty fee ranges). -/
def calculate_mempool_stats_go (st : FeeState) :
    List MempoolBlock → ℚ → ℤ → ℚ → ℚ × ℤ × ℚ
  | [], vsize, count, minimum_fee => (vsize, count, max minimum_fee st.default_fee)
  | block :: rest, vsize, count, minimum_fee =>
    let vsize1 := vsize + block.blockVSize
    let count1 := count + block.nTx
    let minimum_fee1 :=
      if vsize1 / KB_TO_MB * MEMPOOL_SIZE_MULTIPLIER < st.max_mempool_mb then
        block.feeRange.headD 0
      else minimum_fee
    calculate_mempool_stats_go st rest vsize1 count1 minimum_fee1

/-- `RecommendedFees._calculate_mempool_stats`. -/
def calculate_mempool_stats (st : FeeState) (mempool_blocks_fee : List MempoolBlock) :
    ℚ × ℤ × ℚ :=
  calculate_mempool_stats_go st mempool_blocks_fee 0 0 0

/-- `RecommendedFees._calculate_median_fees`: the three tiered
length-dependent calls to `optimize_median_fee`. -/
def calculate_median_fees (st : FeeState) (l : List MempoolBlock) : ℚ × ℚ × ℚ :=
  let first_median_fee :=
    match l with
    | [] => st.default_fee
    | [b0] => optimize_median_fee st b0
    | b0 :: b1 :: _ => optimize_median_fee st b0 (some b1)
  let second_median_fee :=
    match l with
    | _ :: b1 :: b2 :: _ => optimize_median_fee st b1 (some b2) (some first_median_fee)
    | [_, b1] => optimize_median_fee st b1 none (some first_median_fee)
    | _ => st.default_fee
  let third_median_fee :=
    match l with
    | _ :: _ :: b2 :: b3 :: _ =>
      optimize_median_fee st b2 (some b3) (some second_median_fee)
    | [_, _, b2] => optimize_median_fee st b2 none (some second_median_fee)
    | _ => st.default_fee
  (first_median_fee, second_median_fee, third_median_fee)

/-- `RecommendedFees._set_recommended_fees`. -/
def set_recommended_fees (st : FeeState)
    (minimum_fee first_median_fee second_median_fee third_median_fee : ℚ) : FeeState :=
  let fastest_fee := max minimum_fee first_median_fee
  let half_hour_fee := max minimum_fee second_median_fee
  let hour_fee := max minimum_fee third_median_fee
  let economy_fee := max minimum_fee (min (2 * minimum_fee) third_median_fee)
  { st with
    economy_fee := some economy_fee
    fastest_fee := some (max (max (max fastest_fee half_hour_fee) hour_fee) economy_fee)
    half_hour_fee := some (max (max half_hour_fee hour_fee) economy_fee)
    hour_fee := some (max hour_fee economy_fee) }

/-- The block of attribute assignments in `update_mempool_blocks` between
the stats computation and the fee derivation (storing the projection list,
the minimum fee and the aggregate mempool statistics). -/
def update_stats (st : FeeState) (l : List MempoolBlock) : FeeState :=
  { st with
    mempool_blocks_fee := some l
    minimum_fee := (calculate_mempool_stats st l).2.2
    mempool_vsize := (calculate_mempool_stats st l).1
    mempool_size_mb := (calculate_mempool_stats st l).1 / KB_TO_MB * MEMPOOL_SIZE_MULTIPLIER
    mempool_size_gb := (calculate_mempool_stats st l).1 / KB_TO_GB * MEMPOOL_SIZE_MULTIPLIER
    mempool_tx_count := (calculate_mempool_stats st l).2.1
    mempool_blocks := ⌈(calculate_mempool_stats st l).1 / BLOCK_SIZE_DIVISOR⌉ }

/-- `RecommendedFees.update_mempool_blocks`.  Returns the new state together
with the boolean result of the Python method. -/
def update_mempool_blocks (st : FeeState)
    (mempool_blocks_fee : Option (List MempoolBlock)) : FeeState × Bool :=
  match mempool_blocks_fee with
  | none => (st, false)
  | some [] => (st, false)
  | some l =>
    let st1 := update_stats st l
    let fees := calculate_median_fees st1 l
    (set_recommended_fees st1 st1.minimum_fee fees.1 fees.2.1 fees.2.2, true)

/-- `RecommendedFees.__init__`: set the attribute defaults, then run both
update methods on the constructor arguments. -/
def RecommendedFees_init (recommended_fees : Option RecFeesDict)
    (mempool_blocks_fee : Option (List MempoolBlock)) : FeeState :=
  (update_mempool_blocks (update_recommended_fees initFeeState recommended_fees)
    mempool_blocks_fee).1

/-- A placeholder block, used only as the (never reached) default of `getD`. -/
def dummyBlock : MempoolBlock := ⟨0, 0, 0, [], 0⟩

/-- `RecommendedFees._get_fee_data_for_block`.  Python reads
`feeRange[0]` and `feeRange[-1]` before `median` sorts `feeRange` in place;
the in-place sort is modelled by returning an updated state in which the
selected projection's `feeRange` is replaced by its sorted version. -/
def get_fee_data_for_block (st : FeeState) (block_index : Nat) :
    FeeState × (ℚ × ℚ × ℚ) :=
  match st.mempool_blocks_fee with
  | none => (st, (st.default_fee, st.default_fee, st.default_fee))
  | some [] => (st, (st.default_fee, st.default_fee, st.default_fee))
  | some l =>
    let idx := if block_index < l.length then block_index else l.length - 1
    let block := l.getD idx dummyBlock
    let min_fee := block.feeRange.headD 0
    let max_fee := block.feeRange.getLastD 0
    let sorted_med := median block.feeRange
    ({ st with
        mempool_blocks_fee := some (l.set idx { block with feeRange := sorted_med.1 }) },
      (min_fee, sorted_med.2, max_fee))

/-- The loop body of `RecommendedFees.build_fee_array`, threading the state
through the successive (mutating) `_get_fee_data_for_block` calls. -/
def build_fee_array_go (st : FeeState) :
    List Nat → FeeState × (List ℚ × List ℚ × List ℚ)
  | [] => (st, ([], [], []))
  | n :: ns =>
    let r := get_fee_data_for_block st n
    let rest := build_fee_array_go r.1 ns
    (rest.1, (r.2.1 :: rest.2.1, r.2.2.1 :: rest.2.2.1, r.2.2.2 :: rest.2.2.2))

/-- `RecommendedFees.build_fee_array`: iterate over `range(n_fee_blocks)`. -/
def build_fee_array (st : FeeState) : FeeState × (List ℚ × List ℚ × List ℚ) :=
  build_fee_array_go st (List.range st.n_fee_blocks)

/-- The published ordering invariant of the spec: all four tier fees are set
and `fastest_fee ≥ half_hour_fee ≥ hour_fee ≥ economy_fee ≥ minimum_fee`. -/
def feesOrdered (st : FeeState) : Prop :=
  st.fastest_fee.isSome = true ∧ st.half_hour_fee.isSome = true ∧
  st.hour_fee.isSome = true ∧ st.economy_fee.isSome = true ∧
  st.half_hour_fee.getD 0 ≤ st.fastest_fee.getD 0 ∧
  st.hour_fee.getD 0 ≤ st.half_hour_fee.getD 0 ∧
  st.economy_fee.getD 0 ≤ st.hour_fee.getD 0 ∧
  st.minimum_fee ≤ st.economy_fee.getD 0

/-! ## difficulty_adjustment.py

`DifficultyAdjustment.update_difficulty_adjustment` probes four keys of the
snapshot dict with `.get`; `none` models an absent key.  The two
datetime-valued attributes (`estimated_retarget_date`,
`estimated_retarget_period`) depend on the wall clock only through
`time_until`; the date itself is `fromtimestamp(ts / 1000)`, modelled as the
epoch-second value `ts / 1000 : ℚ`, with `none` for the "Unknown" branch. -/

structure DiffSnapshot where
  remainingBlocks : Option ℤ
  estimatedRetargetDate : Option ℤ
  expectedBlocks : Option ℤ
  timeAvg : Option ℚ
deriving DecidableEq

structure DiffState where
  lastblocknum : ℤ
  last_retarget : ℤ
  found_blocks : ℤ
  blocks_behind : ℤ
  minutes_between_blocks : ℚ
  estimated_retarget_date : Option ℚ
deriving DecidableEq

/-- `DifficultyAdjustment.update_difficulty_adjustment` (also the body of
`__init__`, which just calls it).  Returns the updated attribute state and
the method's boolean result (always `True`). -/
def update_difficulty_adjustment (lastblocknum : ℤ) (difficulty_adjustment : DiffSnapshot) :
    DiffState × Bool :=
  let remaining_blocks := difficulty_adjustment.remainingBlocks.getD 0
  let expected_blocks := difficulty_adjustment.expectedBlocks.getD 0
  let time_avg := difficulty_adjustment.timeAvg.getD 600000
  let last_retarget := lastblocknum - 2016 + remaining_blocks
  let found_blocks := lastblocknum - last_retarget
  ({ lastblocknum := lastblocknum
     last_retarget := last_retarget
     found_blocks := found_blocks
     blocks_behind := expected_blocks - found_blocks
     minutes_between_blocks := time_avg / 60000
     estimated_retarget_date :=
       difficulty_adjustment.estimatedRetargetDate.map (fun ts => (ts : ℚ) / 1000) },
    true)

/-! ## halving.py

`Halving.__init__` computes the reward-schedule fields from
`current_height` alone; the wall-clock time estimates (computed only when a
difficulty snapshot is present) are outside the embedding, but whether a
snapshot was supplied is kept so that independence can be stated.
Python's `//` is floor division, which for the positive divisor 210000
coincides with Lean's `Int` division. -/

structure HalvingState where
  current_height : ℤ
  has_difficulty_adjustment : Bool
  current_halving : ℤ
  next_halving_height : ℤ
  blocks_remaining : ℤ
  current_reward : ℚ
  next_reward : ℚ
deriving DecidableEq

def INITIAL_REWARD : ℚ := 50
def HALVING_INTERVAL : ℤ := 210000

/-- `Halving.__init__`. -/
def Halving_init (current_height : ℤ) (difficulty_adjustment : Option DiffSnapshot) :
    HalvingState :=
  let current_halving := current_height / HALVING_INTERVAL
  let next_halving_height := (current_halving + 1) * HALVING_INTERVAL
  { current_height := current_height
    has_difficulty_adjustment := difficulty_adjustment.isSome
    current_halving := current_halving
    next_halving_height := next_halving_height
    blocks_remaining := next_halving_height - current_height
    current_reward := INITIAL_REWARD / (2 : ℚ) ^ current_halving
    next_reward := INITIAL_REWARD / (2 : ℚ) ^ current_halving / 2 }

/-- `Halving.update`: the source re-runs `__init__` on the new arguments,
discarding the previous state. -/
def Halving_update (_st : HalvingState) (current_height : ℤ)
    (difficulty_adjustment : Option DiffSnapshot) : HalvingState :=
  Halving_init current_height difficulty_adjustment

/-! ## api.py: the failover loop of `MempoolAPI._request`

One `Outcome` is the result of a single `__request` on one endpoint
(any internal urllib3 retries have already happened inside it):
a successful decoded payload, a `MempoolResponseError` carrying the decoded
error body, or any other exception (network level), carrying its message.
Payloads, bodies and causes are opaque data, modelled as natural-number
identifiers. -/

inductive Outcome where
  | success (payload : Nat)
  | responseFailure (body : Nat)
  | networkFailure (cause : Nat)
deriving DecidableEq

/-- What `_request` does: return a payload, raise the first recorded
`MempoolResponseError`, or raise `MempoolNetworkError` built from the
last-seen exception (`none` when no endpoint was tried). -/
inductive RequestResult where
  | ok (payload : Nat)
  | raisedResponse (body : Nat)
  | raisedNetwork (lastCause : Option Nat)
deriving DecidableEq

/-- The `while index < len(...)` loop of `MempoolAPI._request`, with the
accumulators `response_errors` and `last_exception` explicit, followed by
the two `raise` statements after the loop. -/
def request_go : List Outcome → List Nat → Option Nat → RequestResult
  | [], response_errors, last_exception =>
    match response_errors with
    | e :: _ => .raisedResponse e
    | [] => .raisedNetwork last_exception
  | o :: rest, response_errors, last_exception =>
    match o with
    | .success p => .ok p
    | .responseFailure body => request_go rest (response_errors ++ [body]) (some body)
    | .networkFailure cause => request_go rest response_errors (some cause)

/-- `MempoolAPI._request`, as a function of the per-endpoint outcomes
(one entry per base URL, in priority order).  `MempoolAPI._send` has the
identical failover structure. -/
def request (outcomes : List Outcome) : RequestResult :=
  request_go outcomes [] none

/-- The body of the first response failure in the outcome list, if any. -/
def firstResponseBody : List Outcome → Option Nat
  | [] => none
  | .responseFailure body :: _ => some body
  | _ :: rest => firstResponseBody rest

/-- The last exception seen over the whole outcome list (response bodies and
network causes alike), if any. -/
def lastExceptionOf : List Outcome → Option Nat
  | [] => none
  | .responseFailure body :: rest => some ((lastExceptionOf rest).getD body)
  | .networkFailure cause :: rest => some ((lastExceptionOf rest).getD cause)
  | .success _ :: rest => lastExceptionOf rest

/-! ## websocket.py: the reconnect loop of `MempoolWebSocketClient.connect`

The `while True` loop is modelled as a transition system.  One `IterOutcome`
is the fate of one loop iteration: the connection and streaming ended
normally, the connection succeeded but a transport error later ended it, the
attempt failed with a transport error outright, or an unclassified exception
occurred.  The jitter `random.uniform(0, 1)` is an oracle input carried on
the event; `await asyncio.sleep(backoff)` is modelled by emitting the slept
duration. -/

inductive WsPhase where
  | running
  | stopped
deriving DecidableEq

structure WsState where
  retry_count : Nat
  phase : WsPhase
deriving DecidableEq

structure WsConfig where
  max_retries : Nat
  max_backoff : ℚ
deriving DecidableEq

inductive IterOutcome where
  | graceful
  | connectedThenError (jitter : ℚ)
  | connectError (jitter : ℚ)
  | fatalError
deriving DecidableEq

/-- The `except (transport errors)` handler: increment `retry_count`,
compute `backoff = min(max_backoff, 2**retry_count + jitter)`, `break`
(without sleeping) once `retry_count > max_retries`, otherwise sleep. -/
def handleTransportError (cfg : WsConfig) (retry_count : Nat) (jitter : ℚ) :
    WsState × Option ℚ :=
  let rc1 := retry_count + 1
  let backoff := min cfg.max_backoff ((2 : ℚ) ^ rc1 + jitter)
  if cfg.max_retries < rc1 then
    (⟨rc1, .stopped⟩, none)
  else
    (⟨rc1, .running⟩, some backoff)

/-- One iteration of the `while True` loop in `connect`.  A successful
connection sets `retry_count = 0` inside the `try`, so an error after it is
handled starting from 0.  A stopped client never runs another iteration. -/
def wsStep (cfg : WsConfig) (s : WsState) (e : IterOutcome) : WsState × Option ℚ :=
  match s.phase with
  | .stopped => (s, none)
  | .running =>
    match e with
    | .graceful => (⟨0, .running⟩, none)
    | .connectedThenError jitter => handleTransportError cfg 0 jitter
    | .connectError jitter => handleTransportError cfg s.retry_count jitter
    | .fatalError => (⟨s.retry_count, .stopped⟩, none)

/-- A run of the loop over a trace of iteration outcomes, collecting the
slept backoff durations. -/
def wsRun (cfg : WsConfig) (s : WsState) : List IterOutcome → WsState × List ℚ
  | [] => (s, [])
  | e :: es =>
    let r := wsStep cfg s e
    let rest := wsRun cfg r.1 es
    (rest.1, match r.2 with | some b => b :: rest.2 | none => rest.2)

/-! ## Generic list lemmas -/

theorem set_getD_self {α : Type} (l : List α) (i : Nat) (d : α) (h : i < l.length) :
    l.set i (l.getD i d) = l := by
  induction l generalizing i with
  | nil => simp at h
  | cons a t ih =>
    cases i with
    | zero => simp
    | succ n =>
      simp only [List.getD_cons_succ, List.set]
      simp only [List.length_cons, Nat.add_lt_add_iff_right] at h
      rw [ih n h]

/-! ## Verification of the difficulty-adjustment estimator -/

/-- C5: for every height and snapshot (missing keys defaulting to
`remainingBlocks = 0`, `expectedBlocks = 0`, `timeAvg = 600000`),
`update_difficulty_adjustment` sets
`last_retarget = height - 2016 + remainingBlocks`,
`found_blocks = height - last_retarget`,
`blocks_behind = expectedBlocks - found_blocks` and
`minutes_between_blocks = timeAvg / 60000`, for any integer
`remainingBlocks` (negative and zero included), and returns `True` (the
computation is total, so it never raises). -/
theorem update_difficulty_adjustment_spec (height : ℤ) (d : DiffSnapshot) :
    (update_difficulty_adjustment height d).1.last_retarget
      = height - 2016 + d.remainingBlocks.getD 0 ∧
    (update_difficulty_adjustment height d).1.found_blocks
      = height - (update_difficulty_adjustment height d).1.last_retarget ∧
    (update_difficulty_adjustment height d).1.blocks_behind
      = d.expectedBlocks.getD 0 - (update_difficulty_adjustment height d).1.found_blocks ∧
    (update_difficulty_adjustment height d).1.minutes_between_blocks
      = d.timeAvg.getD 600000 / 60000 ∧
    (update_difficulty_adjustment height d).2 = true :=
  ⟨rfl, rfl, rfl, rfl, rfl⟩

/-! ## Verification of the halving estimator -/

theorem int_div_eq_floor_div_rat (h : ℤ) : (h / 210000 : ℤ) = ⌊(h : ℚ) / 210000⌋ := by
  have t := Rat.floor_intCast_div_natCast h 210000
  norm_num at t
  omega

/-- C6: for every height, whether constructed or updated and with or
without a difficulty snapshot, the halving state satisfies
`current_halving = ⌊height / 210000⌋`,
`next_halving_height = (current_halving + 1) * 210000`,
`blocks_remaining = next_halving_height - height`,
`current_reward = 50 / 2 ^ current_halving` and
`next_reward = current_reward / 2`. -/
theorem halving_spec (height : ℤ) (d : Option DiffSnapshot) (st0 : HalvingState) :
    Halving_update st0 height d = Halving_init height d ∧
    (Halving_init height d).current_halving = ⌊(height : ℚ) / 210000⌋ ∧
    (Halving_init height d).next_halving_height
      = ((Halving_init height d).current_halving + 1) * 210000 ∧
    (Halving_init height d).blocks_remaining
      = (Halving_init height d).next_halving_height - height ∧
    (Halving_init height d).current_reward
      = 50 / (2 : ℚ) ^ (Halving_init height d).current_halving ∧
    (Halving_init height d).next_reward = (Halving_init height d).current_reward / 2 := by
  refine ⟨rfl, ?_, rfl, rfl, rfl, rfl⟩
  show height / HALVING_INTERVAL = ⌊(height : ℚ) / 210000⌋
  rw [HALVING_INTERVAL]
  exact int_div_eq_floor_div_rat height

/-! ## Verification of `optimize_median_fee` (C3) -/

def exampleBlock800 : MempoolBlock := ⟨800000, 1, 8, [], 0⟩
def exampleBlock400 : MempoolBlock := ⟨400000, 1, 8, [], 0⟩
def exampleNextBlock : MempoolBlock := ⟨1000000, 1, 5, [], 0⟩

/-- C3: `optimize_median_fee` blends the median fee with the previous
tier's fee by simple average when one is supplied; for `blockVSize ≤
500000` it returns `default_fee` regardless of the blended value; for
`500000 < blockVSize ≤ 950000` with no next block it returns
`max(blended * (blockVSize - 500000) / 500000, default_fee)`; otherwise
(including `blockVSize ≤ 950000` with a next block present) it returns the
blended fee unscaled.  Concretely: `blockVSize = 800000`, `medianFee = 8`,
no next block gives `24/5 = 4.8`; the same block with a next block gives
`8`. -/
theorem optimize_median_fee_spec (st : FeeState) (p : MempoolBlock)
    (next_block : Option MempoolBlock) (previous_fee : Option ℚ) :
    (∀ pf, use_fee_of p (some pf) = (p.medianFee + pf) / 2) ∧
    use_fee_of p none = p.medianFee ∧
    (p.blockVSize ≤ 500000 →
      optimize_median_fee st p next_block previous_fee = st.default_fee) ∧
    (500000 < p.blockVSize → p.blockVSize ≤ 950000 → next_block = none →
      optimize_median_fee st p next_block previous_fee
        = max (use_fee_of p previous_fee * ((p.blockVSize - 500000) / 500000))
            st.default_fee) ∧
    (500000 < p.blockVSize → (950000 < p.blockVSize ∨ next_block ≠ none) →
      optimize_median_fee st p next_block previous_fee = use_fee_of p previous_fee) ∧
    optimize_median_fee initFeeState exampleBlock800 none none = 24 / 5 ∧
    optimize_median_fee initFeeState exampleBlock800 (some exampleNextBlock) none = 8 := by
  refine ⟨fun pf => rfl, rfl, ?_, ?_, ?_, ?_, ?_⟩
  · intro h
    simp only [optimize_median_fee, SMALL_BLOCK_SIZE, MEDIUM_BLOCK_SIZE]
    rw [if_pos h]
  · intro h1 h2 h3
    simp only [optimize_median_fee, SMALL_BLOCK_SIZE, MEDIUM_BLOCK_SIZE]
    rw [if_neg (not_le.mpr h1), if_pos ⟨h2, h3⟩]
  · intro h1 h2
    simp only [optimize_median_fee, SMALL_BLOCK_SIZE, MEDIUM_BLOCK_SIZE]
    rw [if_neg (not_le.mpr h1), if_neg ?_]
    rcases h2 with h2 | h2
    · exact fun hc => absurd hc.1 (not_le.mpr h2)
    · exact fun hc => h2 hc.2
  · show optimize_median_fee initFeeState exampleBlock800 none none = 24 / 5
    simp only [optimize_median_fee, use_fee_of, exampleBlock800, initFeeState,
      SMALL_BLOCK_SIZE, MEDIUM_BLOCK_SIZE, DEFAULT_FEE]
    norm_num
  · show optimize_median_fee initFeeState exampleBlock800 (some exampleNextBlock) none = 8
    simp only [optimize_median_fee, use_fee_of, exampleBlock800, exampleNextBlock,
      initFeeState, SMALL_BLOCK_SIZE, MEDIUM_BLOCK_SIZE, DEFAULT_FEE]
    norm_num
    simp

/-- Witness for `optimize_median_fee_spec`: the small-block branch at a
concrete block of vsize 400000. -/
theorem optimize_median_fee_spec_witness :
    exampleBlock400.blockVSize ≤ 500000 ∧
    optimize_median_fee initFeeState exampleBlock400 none none
      = initFeeState.default_fee :=
  ⟨by decide,
    (optimize_median_fee_spec initFeeState exampleBlock400 none none).2.2.1 (by decide)⟩

/-! ## Verification of `update_recommended_fees` (C7, and the C1
counterexample) -/

/-- C7: `update_recommended_fees` is a no-op on a `None` or empty snapshot;
otherwise each fee field whose key is present in the snapshot is
overwritten with the snapshot's value and each fee field whose key is
absent keeps its previously-held value. -/
theorem update_recommended_fees_spec (st : FeeState) (r : RecFeesDict) :
    update_recommended_fees st none = st ∧
    (r = RecFeesDict.empty → update_recommended_fees st (some r) = st) ∧
    (∀ v, r.hourFee = some v →
      (update_recommended_fees st (some r)).hour_fee = some v) ∧
    (r.hourFee = none →
      (update_recommended_fees st (some r)).hour_fee = st.hour_fee) ∧
    (∀ v, r.halfHourFee = some v →
      (update_recommended_fees st (some r)).half_hour_fee = some v) ∧
    (r.halfHourFee = none →
      (update_recommended_fees st (some r)).half_hour_fee = st.half_hour_fee) ∧
    (∀ v, r.fastestFee = some v →
      (update_recommended_fees st (some r)).fastest_fee = some v) ∧
    (r.fastestFee = none →
      (update_recommended_fees st (some r)).fastest_fee = st.fastest_fee) ∧
    (∀ v, r.economy_fee = some v →
      (update_recommended_fees st (some r)).economy_fee = some v) ∧
    (r.economy_fee = none →
      (update_recommended_fees st (some r)).economy_fee = st.economy_fee) ∧
    (∀ v, r.minimumFee = some v →
      (update_recommended_fees st (some r)).minimum_fee = v) ∧
    (r.minimumFee = none →
      (update_recommended_fees st (some r)).minimum_fee = st.minimum_fee) := by
  refine ⟨rfl, ?_, ?_, ?_, ?_, ?_, ?_, ?_, ?_, ?_, ?_, ?_⟩
  · rintro rfl
    rfl
  all_goals
    first
    | (intro v h; simp [update_recommended_fees, getOr, h])
    | (intro h; simp [update_recommended_fees, getOr, h])

/-- Witness for `update_recommended_fees_spec`: the empty snapshot leaves
the freshly-initialized state unchanged, and a snapshot carrying only
`hourFee` overwrites only that field. -/
theorem update_recommended_fees_spec_witness :
    RecFeesDict.empty = RecFeesDict.empty ∧
    update_recommended_fees initFeeState (some RecFeesDict.empty) = initFeeState :=
  ⟨rfl, (update_recommended_fees_spec initFeeState RecFeesDict.empty).2.1 rfl⟩

/-- The projection list used for the C1 counterexample instance. -/
def cexProjections : List MempoolBlock :=
  [⟨1000000, 10, 10, [2, 5, 9], 0⟩, ⟨1000000, 7, 7, [1, 4, 8], 0⟩,
    ⟨600000, 3, 3, [1, 2, 6], 0⟩]

/-- A recommended-fee snapshot carrying only `hourFee = 100`. -/
def cexSnapshot : RecFeesDict := ⟨some 100, none, none, none, none⟩

/-- An ordered full snapshot (`fastest 10 ≥ half-hour 8 ≥ hour 6 ≥
economy 2 ≥ minimum 1`), used to build the C1 counterexample instance. -/
def orderedSnapshot : RecFeesDict := ⟨some 6, some 8, some 10, some 2, some 1⟩

instance (st : FeeState) : Decidable (feesOrdered st) := by
  unfold feesOrdered
  infer_instance

/-- C1 counterexample: a `RecommendedFees` instance whose published fees
are ordered (`10 ≥ 8 ≥ 6 ≥ 2 ≥ 1`) loses the ordering invariant after
`update_recommended_fees` with a snapshot carrying only `hourFee = 100`:
the snapshot's values are copied verbatim and nothing re-establishes
`fastest_fee ≥ half_hour_fee ≥ hour_fee`. -/
theorem update_recommended_fees_breaks_ordering :
    ¬ feesOrdered (update_recommended_fees
        (RecommendedFees_init (some orderedSnapshot) none) (some cexSnapshot)) := by
  decide

/-! ## The ordering invariant established by `_set_recommended_fees`
(C1 amended, C2) -/

theorem set_recommended_fees_minimum_fee (st : FeeState) (m t1 t2 t3 : ℚ) :
    (set_recommended_fees st m t1 t2 t3).minimum_fee = st.minimum_fee := rfl

/-- The cascading maxima of `_set_recommended_fees` publish ordered fees
whenever the `minimum_fee` argument agrees with the stored attribute (as it
does at the single call site). -/
theorem set_recommended_fees_feesOrdered (st : FeeState) (m t1 t2 t3 : ℚ)
    (hm : st.minimum_fee = m) :
    feesOrdered (set_recommended_fees st m t1 t2 t3) := by
  refine ⟨rfl, rfl, rfl, rfl, ?_, ?_, ?_, ?_⟩
  · show max (max (max m t2) (max m t3)) (max m (min (2 * m) t3))
        ≤ max (max (max (max m t1) (max m t2)) (max m t3)) (max m (min (2 * m) t3))
    exact max_le_max (max_le_max (le_max_right _ _) le_rfl) le_rfl
  · show max (max m t3) (max m (min (2 * m) t3))
        ≤ max (max (max m t2) (max m t3)) (max m (min (2 * m) t3))
    exact max_le_max (le_max_right _ _) le_rfl
  · show max m (min (2 * m) t3) ≤ max (max m t3) (max m (min (2 * m) t3))
    exact le_max_right _ _
  · show st.minimum_fee ≤ max m (min (2 * m) t3)
    rw [hm]
    exact le_max_left _ _

/-- C1 (amended): the ordering invariant is established by
`update_mempool_blocks` on every non-empty projection list (the cascading
maxima of `_set_recommended_fees` enforce it); `update_recommended_fees`
does not enforce it (see `update_recommended_fees_breaks_ordering`). -/
theorem update_mempool_blocks_feesOrdered (st : FeeState) (l : List MempoolBlock)
    (hne : l ≠ []) (_hfr : ∀ b ∈ l, b.feeRange ≠ []) :
    feesOrdered (update_mempool_blocks st (some l)).1 := by
  cases l with
  | nil => exact absurd rfl hne
  | cons b bs => exact set_recommended_fees_feesOrdered _ _ _ _ _ rfl

/-- Witness for `update_mempool_blocks_feesOrdered` at a concrete
three-projection list. -/
theorem update_mempool_blocks_feesOrdered_witness :
    cexProjections ≠ [] ∧ (∀ b ∈ cexProjections, b.feeRange ≠ []) ∧
    feesOrdered (update_mempool_blocks initFeeState (some cexProjections)).1 :=
  ⟨by decide, by decide,
    update_mempool_blocks_feesOrdered initFeeState cexProjections (by decide) (by decide)⟩

theorem calculate_mempool_stats_go_default_le (st : FeeState) :
    ∀ (l : List MempoolBlock) (v : ℚ) (c : ℤ) (m : ℚ),
      st.default_fee ≤ (calculate_mempool_stats_go st l v c m).2.2
  | [], _, _, m => le_max_right m st.default_fee
  | b :: rest, v, c, m => by
    simp only [calculate_mempool_stats_go]
    exact calculate_mempool_stats_go_default_le st rest _ _ _

theorem optimize_median_fee_congr (st st' : FeeState) (p : MempoolBlock)
    (nb : Option MempoolBlock) (pf : Option ℚ) (h : st.default_fee = st'.default_fee) :
    optimize_median_fee st p nb pf = optimize_median_fee st' p nb pf := by
  simp only [optimize_median_fee, h]

/-- `_calculate_median_fees` reads the instance state only through
`default_fee`. -/
theorem calculate_median_fees_congr (st st' : FeeState) (l : List MempoolBlock)
    (h : st.default_fee = st'.default_fee) :
    calculate_median_fees st l = calculate_median_fees st' l := by
  rcases l with _ | ⟨b0, _ | ⟨b1, _ | ⟨b2, _ | ⟨b3, rest⟩⟩⟩⟩ <;>
    simp only [calculate_median_fees, optimize_median_fee_congr st st' _ _ _ h, h]

/-- C2: after `update_mempool_blocks` on a non-empty projection list the
method returns `True`, the published fees are ordered, and
`minimum_fee ≤ economy_fee ≤ 2 * minimum_fee`, because
`economy_fee = max(minimum_fee, min(2 * minimum_fee, tier3_fee))`.
`default_fee = 1` is the class invariant established by `__init__`. -/
theorem update_mempool_blocks_economy_spec (st : FeeState) (l : List MempoolBlock)
    (hne : l ≠ []) (hdf : st.default_fee = 1) (_hfr : ∀ b ∈ l, b.feeRange ≠ []) :
    (update_mempool_blocks st (some l)).2 = true ∧
    feesOrdered (update_mempool_blocks st (some l)).1 ∧
    (update_mempool_blocks st (some l)).1.minimum_fee
      ≤ ((update_mempool_blocks st (some l)).1.economy_fee).getD 0 ∧
    ((update_mempool_blocks st (some l)).1.economy_fee).getD 0
      ≤ 2 * (update_mempool_blocks st (some l)).1.minimum_fee ∧
    (update_mempool_blocks st (some l)).1.economy_fee
      = some (max (update_mempool_blocks st (some l)).1.minimum_fee
          (min (2 * (update_mempool_blocks st (some l)).1.minimum_fee)
            (calculate_median_fees st l).2.2)) := by
  cases l with
  | nil => exact absurd rfl hne
  | cons b bs =>
    have hm1 : (1 : ℚ) ≤ (calculate_mempool_stats st (b :: bs)).2.2 := by
      rw [← hdf]
      exact calculate_mempool_stats_go_default_le st (b :: bs) 0 0 0
    refine ⟨rfl, set_recommended_fees_feesOrdered _ _ _ _ _ rfl, ?_, ?_, ?_⟩
    · show (calculate_mempool_stats st (b :: bs)).2.2
        ≤ max (calculate_mempool_stats st (b :: bs)).2.2
            (min (2 * (calculate_mempool_stats st (b :: bs)).2.2)
              ((calculate_median_fees (update_stats st (b :: bs)) (b :: bs)).2.2))
      exact le_max_left _ _
    · show max (calculate_mempool_stats st (b :: bs)).2.2
          (min (2 * (calculate_mempool_stats st (b :: bs)).2.2)
            ((calculate_median_fees (update_stats st (b :: bs)) (b :: bs)).2.2))
        ≤ 2 * (calculate_mempool_stats st (b :: bs)).2.2
      refine max_le (by linarith) (min_le_left _ _)
    · show some (max (calculate_mempool_stats st (b :: bs)).2.2
          (min (2 * (calculate_mempool_stats st (b :: bs)).2.2)
            ((calculate_median_fees (update_stats st (b :: bs)) (b :: bs)).2.2)))
        = some (max (calculate_mempool_stats st (b :: bs)).2.2
            (min (2 * (calculate_mempool_stats st (b :: bs)).2.2)
              ((calculate_median_fees st (b :: bs)).2.2)))
      rw [calculate_median_fees_congr (update_stats st (b :: bs)) st (b :: bs) rfl]

/-- Witness for `update_mempool_blocks_economy_spec` at a concrete
three-projection list starting from the freshly-initialized state. -/
theorem update_mempool_blocks_economy_spec_witness :
    cexProjections ≠ [] ∧ initFeeState.default_fee = 1 ∧
    (∀ b ∈ cexProjections, b.feeRange ≠ []) ∧
    ((update_mempool_blocks initFeeState (some cexProjections)).2 = true ∧
     feesOrdered (update_mempool_blocks initFeeState (some cexProjections)).1 ∧
     (update_mempool_blocks initFeeState (some cexProjections)).1.minimum_fee
       ≤ ((update_mempool_blocks initFeeState (some cexProjections)).1.economy_fee).getD 0 ∧
     ((update_mempool_blocks initFeeState (some cexProjections)).1.economy_fee).getD 0
       ≤ 2 * (update_mempool_blocks initFeeState (some cexProjections)).1.minimum_fee ∧
     (update_mempool_blocks initFeeState (some cexProjections)).1.economy_fee
       = some (max (update_mempool_blocks initFeeState (some cexProjections)).1.minimum_fee
           (min (2 * (update_mempool_blocks initFeeState (some cexProjections)).1.minimum_fee)
             (calculate_median_fees initFeeState cexProjections).2.2))) :=
  ⟨by decide, rfl, by decide,
    update_mempool_blocks_economy_spec initFeeState cexProjections (by decide) rfl (by decide)⟩

/-! ## Verification of the request dispatcher (C4) -/

/-- Once the `response_errors` accumulator is non-empty and no later
endpoint succeeds, its first entry is what gets raised. -/
theorem request_go_acc_head :
    ∀ (os : List Outcome) (b : Nat) (acc : List Nat) (last : Option Nat),
      (∀ p, Outcome.success p ∉ os) →
      request_go os (b :: acc) last = RequestResult.raisedResponse b
  | [], _, _, _, _ => rfl
  | Outcome.success p :: _, _, _, _, hns =>
    absurd (List.mem_cons_self _ _) (hns p)
  | Outcome.responseFailure body :: rest, b, acc, _, hns => by
    simp only [request_go, List.cons_append]
    exact request_go_acc_head rest b (acc ++ [body]) (some body)
      (fun p hp => hns p (List.mem_cons_of_mem _ hp))
  | Outcome.networkFailure cause :: rest, b, acc, _, hns => by
    simp only [request_go]
    exact request_go_acc_head rest b acc (some cause)
      (fun p hp => hns p (List.mem_cons_of_mem _ hp))

/-- With no success, the first response failure (if any) is what gets
raised, whatever the `last_exception` register holds. -/
theorem request_go_first :
    ∀ (os : List Outcome) (b : Nat) (last : Option Nat),
      (∀ p, Outcome.success p ∉ os) → firstResponseBody os = some b →
      request_go os [] last = RequestResult.raisedResponse b
  | [], _, _, _, hfb => by simp [firstResponseBody] at hfb
  | Outcome.success p :: _, _, _, hns, _ =>
    absurd (List.mem_cons_self _ _) (hns p)
  | Outcome.responseFailure body :: rest, b, last, hns, hfb => by
    simp only [firstResponseBody, Option.some.injEq] at hfb
    subst hfb
    simp only [request_go, List.nil_append]
    exact request_go_acc_head rest body [] (some body)
      (fun p hp => hns p (List.mem_cons_of_mem _ hp))
  | Outcome.networkFailure cause :: rest, b, last, hns, hfb => by
    simp only [firstResponseBody] at hfb
    simp only [request_go]
    exact request_go_first rest b (some cause)
      (fun p hp => hns p (List.mem_cons_of_mem _ hp)) hfb

/-- An empty `firstResponseBody` means no endpoint produced a response
failure at all. -/
theorem firstResponseBody_none :
    ∀ (os : List Outcome), firstResponseBody os = none →
      ∀ b, Outcome.responseFailure b ∉ os
  | [], _, b => by simp
  | Outcome.success p :: rest, hfb, b => by
    simp only [firstResponseBody] at hfb
    simp only [List.mem_cons]
    rintro (h | h)
    · exact Outcome.noConfusion h
    · exact firstResponseBody_none rest hfb b h
  | Outcome.responseFailure body :: rest, hfb, b => by
    simp [firstResponseBody] at hfb
  | Outcome.networkFailure cause :: rest, hfb, b => by
    simp only [firstResponseBody] at hfb
    simp only [List.mem_cons]
    rintro (h | h)
    · exact Outcome.noConfusion h
    · exact firstResponseBody_none rest hfb b h

/-- With no success and no response failure, the loop ends in a network
error whose cause register holds the last-seen cause (or the incoming
register when no endpoint was tried). -/
theorem request_go_network :
    ∀ (os : List Outcome) (last : Option Nat),
      (∀ p, Outcome.success p ∉ os) →
      (∀ b, Outcome.responseFailure b ∉ os) →
      request_go os [] last =
        RequestResult.raisedNetwork
          (match lastExceptionOf os with | some x => some x | none => last)
  | [], _, _, _ => rfl
  | Outcome.success p :: _, _, hns, _ =>
    absurd (List.mem_cons_self _ _) (hns p)
  | Outcome.responseFailure body :: _, _, _, hnr =>
    absurd (List.mem_cons_self _ _) (hnr body)
  | Outcome.networkFailure cause :: rest, last, hns, hnr => by
    simp only [request_go]
    rw [request_go_network rest (some cause)
      (fun p hp => hns p (List.mem_cons_of_mem _ hp))
      (fun b hb => hnr b (List.mem_cons_of_mem _ hb))]
    simp only [lastExceptionOf]
    cases h : lastExceptionOf rest <;> simp [h]

/-- C4: when no endpoint yields a success, `_request` raises the first
recorded response failure (carrying that endpoint's decoded error body) if
one occurred, and otherwise raises a network failure referencing the
last-seen cause; it never returns without either data or one of these two
errors. -/
theorem request_exhaustion_spec (os : List Outcome)
    (hns : ∀ p, Outcome.success p ∉ os) :
    (∀ p, request os ≠ RequestResult.ok p) ∧
    (∀ b, firstResponseBody os = some b →
      request os = RequestResult.raisedResponse b) ∧
    (firstResponseBody os = none →
      request os = RequestResult.raisedNetwork (lastExceptionOf os)) := by
  have hnet : firstResponseBody os = none →
      request os = RequestResult.raisedNetwork (lastExceptionOf os) := by
    intro hfb
    rw [request, request_go_network os none hns (firstResponseBody_none os hfb)]
    cases h : lastExceptionOf os <;> simp [h]
  refine ⟨?_, fun b hfb => request_go_first os b none hns hfb, hnet⟩
  intro p
  cases hfb : firstResponseBody os with
  | some b =>
    rw [request, request_go_first os b none hns hfb]
    exact fun hc => RequestResult.noConfusion hc
  | none =>
    rw [hnet hfb]
    exact fun hc => RequestResult.noConfusion hc

/-- The outcome trace used for the C4 witness: two response failures
around a network failure; no endpoint succeeds. -/
def cexOutcomes : List Outcome :=
  [Outcome.responseFailure 1, Outcome.networkFailure 7, Outcome.responseFailure 2]

/-- Witness for `request_exhaustion_spec`: on `cexOutcomes` the dispatcher
raises the first response failure's body. -/
theorem request_exhaustion_spec_witness :
    (∀ p, Outcome.success p ∉ cexOutcomes) ∧
    ((∀ p, request cexOutcomes ≠ RequestResult.ok p) ∧
     (∀ b, firstResponseBody cexOutcomes = some b →
       request cexOutcomes = RequestResult.raisedResponse b) ∧
     (firstResponseBody cexOutcomes = none →
       request cexOutcomes = RequestResult.raisedNetwork (lastExceptionOf cexOutcomes))) := by
  have hns : ∀ p, Outcome.success p ∉ cexOutcomes := by
    intro p hp
    simp [cexOutcomes] at hp
  exact ⟨hns, request_exhaustion_spec cexOutcomes hns⟩

/-! ## Verification of the websocket reconnect loop (C9) -/

theorem wsStep_stopped (cfg : WsConfig) (s : WsState) (e : IterOutcome)
    (h : s.phase = WsPhase.stopped) : wsStep cfg s e = (s, none) := by
  obtain ⟨rc, ph⟩ := s
  cases ph
  · simp at h
  · rfl

theorem wsRun_stopped (cfg : WsConfig) (s : WsState) (h : s.phase = WsPhase.stopped) :
    ∀ es, wsRun cfg s es = (s, [])
  | [] => rfl
  | e :: es => by
    simp only [wsRun, wsStep_stopped cfg s e h]
    rw [wsRun_stopped cfg s h es]

/-- C9: in the reconnect loop, a transport error in the running phase
increments the retry counter; while the incremented counter stays within
`max_retries` the loop sleeps `min(max_backoff, 2 ^ retry_count + jitter)`
seconds and stays running (i.e. reconnects); once the counter exceeds
`max_retries` the loop stops without sleeping, and a stopped client is
terminal (no step, and no whole run, ever leaves it or sleeps again).  A
successful connection resets the counter to 0, so an error ending a
successfully-connected session restarts the count at 1. -/
theorem ws_reconnect_spec (cfg : WsConfig) (s : WsState) (j : ℚ)
    (hrun : s.phase = WsPhase.running) :
    (wsStep cfg s (IterOutcome.connectError j)).1.retry_count = s.retry_count + 1 ∧
    (s.retry_count + 1 ≤ cfg.max_retries →
      (wsStep cfg s (IterOutcome.connectError j)).1.phase = WsPhase.running ∧
      (wsStep cfg s (IterOutcome.connectError j)).2
        = some (min cfg.max_backoff ((2 : ℚ) ^ (s.retry_count + 1) + j))) ∧
    (cfg.max_retries < s.retry_count + 1 →
      (wsStep cfg s (IterOutcome.connectError j)).1.phase = WsPhase.stopped ∧
      (wsStep cfg s (IterOutcome.connectError j)).2 = none) ∧
    (wsStep cfg s IterOutcome.graceful).1.retry_count = 0 ∧
    (wsStep cfg s (IterOutcome.connectedThenError j)).1.retry_count = 1 ∧
    (∀ s' e, s'.phase = WsPhase.stopped → wsStep cfg s' e = (s', none)) ∧
    (∀ s' es, s'.phase = WsPhase.stopped → wsRun cfg s' es = (s', [])) := by
  obtain ⟨rc, ph⟩ := s
  cases ph
  case stopped => simp at hrun
  case running =>
  refine ⟨?_, ?_, ?_, rfl, ?_, wsStep_stopped cfg, fun s' es h => wsRun_stopped cfg s' h es⟩
  · show (handleTransportError cfg rc j).1.retry_count = rc + 1
    by_cases hc : cfg.max_retries < rc + 1 <;> simp [handleTransportError, hc]
  · intro hle
    show (handleTransportError cfg rc j).1.phase = WsPhase.running ∧
      (handleTransportError cfg rc j).2
        = some (min cfg.max_backoff ((2 : ℚ) ^ (rc + 1) + j))
    unfold handleTransportError
    rw [if_neg (not_lt.mpr hle)]
    exact ⟨rfl, rfl⟩
  · intro hlt
    show (handleTransportError cfg rc j).1.phase = WsPhase.stopped ∧
      (handleTransportError cfg rc j).2 = none
    unfold handleTransportError
    rw [if_pos hlt]
    exact ⟨rfl, rfl⟩
  · show (handleTransportError cfg 0 j).1.retry_count = 1
    by_cases hc : cfg.max_retries < 0 + 1 <;> simp [handleTransportError, hc]

/-- Witness for `ws_reconnect_spec` at a concrete running state. -/
theorem ws_reconnect_spec_witness :
    (WsState.mk 2 WsPhase.running).phase = WsPhase.running ∧
    ((wsStep ⟨5, 60⟩ ⟨2, WsPhase.running⟩ (IterOutcome.connectError (1/2))).1.retry_count
        = (WsState.mk 2 WsPhase.running).retry_count + 1 ∧
     ((WsState.mk 2 WsPhase.running).retry_count + 1 ≤ (WsConfig.mk 5 60).max_retries →
       (wsStep ⟨5, 60⟩ ⟨2, WsPhase.running⟩ (IterOutcome.connectError (1/2))).1.phase
          = WsPhase.running ∧
       (wsStep ⟨5, 60⟩ ⟨2, WsPhase.running⟩ (IterOutcome.connectError (1/2))).2
          = some (min (WsConfig.mk 5 60).max_backoff
              ((2 : ℚ) ^ ((WsState.mk 2 WsPhase.running).retry_count + 1) + 1/2))) ∧
     ((WsConfig.mk 5 60).max_retries < (WsState.mk 2 WsPhase.running).retry_count + 1 →
       (wsStep ⟨5, 60⟩ ⟨2, WsPhase.running⟩ (IterOutcome.connectError (1/2))).1.phase
          = WsPhase.stopped ∧
       (wsStep ⟨5, 60⟩ ⟨2, WsPhase.running⟩ (IterOutcome.connectError (1/2))).2 = none) ∧
     (wsStep ⟨5, 60⟩ ⟨2, WsPhase.running⟩ IterOutcome.graceful).1.retry_count = 0 ∧
     (wsStep ⟨5, 60⟩ ⟨2, WsPhase.running⟩ (IterOutcome.connectedThenError (1/2))).1.retry_count = 1 ∧
     (∀ s' e, s'.phase = WsPhase.stopped → wsStep ⟨5, 60⟩ s' e = (s', none)) ∧
     (∀ s' es, s'.phase = WsPhase.stopped → wsRun ⟨5, 60⟩ s' es = (s', []))) :=
  ⟨rfl, ws_reconnect_spec ⟨5, 60⟩ ⟨2, WsPhase.running⟩ (1/2) rfl⟩

/-! ## Minimum / median / maximum predicates and sorted-list lemmas
(C8, C10) -/

/-- `m` is the minimum of `xs`: a member no larger than any member. -/
def isMinOf (m : ℚ) (xs : List ℚ) : Prop := m ∈ xs ∧ ∀ x ∈ xs, m ≤ x

/-- `m` is the maximum of `xs`: a member no smaller than any member. -/
def isMaxOf (m : ℚ) (xs : List ℚ) : Prop := m ∈ xs ∧ ∀ x ∈ xs, x ≤ m

/-- `md` is the median of `xs` in the spec's sense: the middle element of
the ascending-sorted values for odd length, the mean of the two central
sorted values for even length. -/
def isMedianOf (md : ℚ) (xs : List ℚ) : Prop :=
  ∃ s, List.Perm s xs ∧ List.Sorted (fun x y => x ≤ y) s ∧
    (if xs.length % 2 = 0 then
      md = (s.getD (xs.length / 2) 0 + s.getD (xs.length / 2 - 1) 0) / 2
    else md = s.getD (xs.length / 2) 0)

theorem getD_mem {α : Type} :
    ∀ (l : List α) (i : Nat) (d : α), i < l.length → l.getD i d ∈ l
  | a :: t, 0, _, _ => List.mem_cons_self a t
  | a :: t, i + 1, d, h =>
    List.mem_cons_of_mem a (getD_mem t i d (by simpa using h))
  | [], _, _, h => absurd h (by simp)

theorem sorted_headD_min :
    ∀ (l : List ℚ), List.Sorted (fun x y => x ≤ y) l → l ≠ [] →
      isMinOf (l.headD 0) l
  | [], _, h => absurd rfl h
  | a :: t, hs, _ => ⟨List.mem_cons_self a t, by
      intro x hx
      rcases List.mem_cons.mp hx with rfl | hx
      · exact le_rfl
      · exact List.rel_of_sorted_cons hs x hx⟩

theorem sorted_getLastD_max :
    ∀ (l : List ℚ), List.Sorted (fun x y => x ≤ y) l → l ≠ [] →
      isMaxOf (l.getLastD 0) l
  | [], _, h => absurd rfl h
  | [a], _, _ => ⟨by simp, by intro x hx; simp at hx; simp [hx]⟩
  | a :: b :: t, hs, _ => by
    have ih := sorted_getLastD_max (b :: t) hs.of_cons (by simp)
    refine ⟨List.mem_cons_of_mem a ih.1, ?_⟩
    intro x hx
    rcases List.mem_cons.mp hx with rfl | hx
    · exact List.rel_of_sorted_cons hs _ ih.1
    · exact ih.2 x hx

theorem median_fst (a : List ℚ) :
    (median a).1 = List.insertionSort (fun x y => x ≤ y) a := by
  by_cases h : a.length % 2 = 0 <;> simp [median, h]

/-- The value returned by `median` is the spec's median of the input. -/
theorem median_isMedianOf (a : List ℚ) : isMedianOf (median a).2 a := by
  unfold isMedianOf
  refine ⟨List.insertionSort (fun x y => x ≤ y) a, List.perm_insertionSort _ a,
    List.sorted_insertionSort _ a, ?_⟩
  by_cases h : a.length % 2 = 0 <;> simp [median, h]

theorem mempoolBlock_eta (mb : MempoolBlock) :
    MempoolBlock.mk mb.blockVSize mb.nTx mb.medianFee mb.feeRange mb.totalFees = mb :=
  rfl

/-- When every stored fee range is already sorted, the in-place sort of
`_get_fee_data_for_block` rewrites the stored list to itself: the state is
unchanged. -/
theorem get_fee_data_sorted_fst (st : FeeState) (l : List MempoolBlock)
    (hl : st.mempool_blocks_fee = some l) (hne : l ≠ [])
    (hfr : ∀ b ∈ l, b.feeRange ≠ [] ∧ List.Sorted (fun x y => x ≤ y) b.feeRange)
    (i : Nat) : (get_fee_data_for_block st i).1 = st := by
  cases l with
  | nil => exact absurd rfl hne
  | cons b bs =>
    have hidx : (if i < (b :: bs).length then i else (b :: bs).length - 1)
        < (b :: bs).length := by
      split
      · assumption
      · simp only [List.length_cons]
        omega
    have hmem : (b :: bs).getD
        (if i < (b :: bs).length then i else (b :: bs).length - 1) dummyBlock
        ∈ (b :: bs) := getD_mem _ _ _ hidx
    have hsorted := (hfr _ hmem).2
    simp only [get_fee_data_for_block, hl]
    rw [median_fst, hsorted.insertionSort_eq, mempoolBlock_eta,
      set_getD_self _ _ _ hidx, ← hl]

/-- The triple emitted by `_get_fee_data_for_block`: the selected
projection's first fee-range entry, its median, and its last entry; slot
indices past the stored list clamp to the last projection. -/
theorem get_fee_data_sorted_snd (st : FeeState) (l : List MempoolBlock)
    (hl : st.mempool_blocks_fee = some l) (hne : l ≠ []) (i : Nat) :
    (get_fee_data_for_block st i).2
      = (((l.getD (if i < l.length then i else l.length - 1) dummyBlock).feeRange).headD 0,
         (median ((l.getD (if i < l.length then i else l.length - 1) dummyBlock).feeRange)).2,
         ((l.getD (if i < l.length then i else l.length - 1) dummyBlock).feeRange).getLastD 0) := by
  cases l with
  | nil => exact absurd rfl hne
  | cons b bs => simp only [get_fee_data_for_block, hl]

theorem get_fee_data_nodata (st : FeeState)
    (h : st.mempool_blocks_fee = none ∨ st.mempool_blocks_fee = some []) (i : Nat) :
    get_fee_data_for_block st i = (st, (st.default_fee, st.default_fee, st.default_fee)) := by
  rcases h with h | h <;> simp only [get_fee_data_for_block, h]

theorem build_fee_array_go_const (st : FeeState)
    (h : ∀ i, get_fee_data_for_block st i
      = (st, (st.default_fee, st.default_fee, st.default_fee))) :
    ∀ ns : List Nat,
      build_fee_array_go st ns
        = (st, (List.replicate ns.length st.default_fee,
                List.replicate ns.length st.default_fee,
                List.replicate ns.length st.default_fee))
  | [] => rfl
  | n :: ns => by
    simp only [build_fee_array_go, h n, build_fee_array_go_const st h ns,
      List.length_cons, List.replicate_succ]

theorem build_fee_array_go_fixed (st : FeeState)
    (h1 : ∀ i, (get_fee_data_for_block st i).1 = st) :
    ∀ ns : List Nat,
      (build_fee_array_go st ns).1 = st ∧
      (build_fee_array_go st ns).2.1
        = ns.map (fun i => (get_fee_data_for_block st i).2.1) ∧
      (build_fee_array_go st ns).2.2.1
        = ns.map (fun i => (get_fee_data_for_block st i).2.2.1) ∧
      (build_fee_array_go st ns).2.2.2
        = ns.map (fun i => (get_fee_data_for_block st i).2.2.2)
  | [] => ⟨rfl, rfl, rfl, rfl⟩
  | n :: ns => by
    have ih := build_fee_array_go_fixed st h1 ns
    simp only [build_fee_array_go, h1 n, List.map_cons]
    exact ⟨ih.1, by rw [ih.2.1], by rw [ih.2.2.1], by rw [ih.2.2.2]⟩

/-- A one-projection state whose stored fee range `[3, 1, 2]` is unsorted,
so reading fee data for block 0 mutates the state. -/
def mutationExample : FeeState :=
  { initFeeState with mempool_blocks_fee := some [⟨1000000, 1, 5, [3, 1, 2], 0⟩] }

/-- C10: `median` returns the middle element of the ascending-sorted values
for odd length and the mean of the two central sorted values for even
length, and as a side effect replaces the list with its sorted version, so
`_get_fee_data_for_block` (hence `build_fee_array`) rewrites the stored
projection's `feeRange` to its sorted permutation — on an unsorted stored
range the state genuinely changes. -/
theorem median_spec (a : List ℚ) (_hne : a ≠ []) :
    List.Perm (median a).1 a ∧
    List.Sorted (fun x y => x ≤ y) (median a).1 ∧
    (a.length % 2 = 1 → (median a).2 = (median a).1.getD (a.length / 2) 0) ∧
    (a.length % 2 = 0 →
      (median a).2 = ((median a).1.getD (a.length / 2) 0
        + (median a).1.getD (a.length / 2 - 1) 0) / 2) ∧
    (∀ (st : FeeState) (l : List MempoolBlock) (i : Nat),
      st.mempool_blocks_fee = some l → i < l.length →
      (get_fee_data_for_block st i).1.mempool_blocks_fee
        = some (l.set i
            { l.getD i dummyBlock with
                feeRange := (median (l.getD i dummyBlock).feeRange).1 })) ∧
    (get_fee_data_for_block mutationExample 0).1 ≠ mutationExample := by
  refine ⟨?_, ?_, ?_, ?_, ?_, ?_⟩
  · rw [median_fst]
    exact List.perm_insertionSort _ a
  · rw [median_fst]
    exact List.sorted_insertionSort _ a
  · intro h
    have h0 : ¬ a.length % 2 = 0 := by omega
    simp [median, h0]
  · intro h
    simp [median, h]
  · intro st l i hl hi
    cases l with
    | nil => simp at hi
    | cons b bs => simp only [get_fee_data_for_block, hl, if_pos hi]
  · decide

/-- Witness for `median_spec` at the concrete list `[3, 1, 2]`. -/
theorem median_spec_witness :
    ([3, 1, 2] : List ℚ) ≠ [] ∧
    (List.Perm (median [3, 1, 2]).1 [3, 1, 2] ∧
     List.Sorted (fun x y => x ≤ y) (median [3, 1, 2]).1 ∧
     (([3, 1, 2] : List ℚ).length % 2 = 1 →
       (median [3, 1, 2]).2 = (median [3, 1, 2]).1.getD (([3, 1, 2] : List ℚ).length / 2) 0) ∧
     (([3, 1, 2] : List ℚ).length % 2 = 0 →
       (median [3, 1, 2]).2 = ((median [3, 1, 2]).1.getD (([3, 1, 2] : List ℚ).length / 2) 0
         + (median [3, 1, 2]).1.getD (([3, 1, 2] : List ℚ).length / 2 - 1) 0) / 2) ∧
     (∀ (st : FeeState) (l : List MempoolBlock) (i : Nat),
       st.mempool_blocks_fee = some l → i < l.length →
       (get_fee_data_for_block st i).1.mempool_blocks_fee
         = some (l.set i
             { l.getD i dummyBlock with
                 feeRange := (median (l.getD i dummyBlock).feeRange).1 })) ∧
     (get_fee_data_for_block mutationExample 0).1 ≠ mutationExample) :=
  ⟨by decide, median_spec [3, 1, 2] (by decide)⟩

/-- C8: `build_fee_array` emits exactly `n_fee_blocks = 5` slots; with no
stored projections every slot is `(default_fee, default_fee, default_fee)`;
with stored projections, slot `i` carries the minimum, median and maximum
of projection `i`'s fee range when it exists and of the last stored
projection's fee range otherwise. -/
theorem build_fee_array_spec (st : FeeState) :
    ((st.mempool_blocks_fee = none ∨ st.mempool_blocks_fee = some []) →
      build_fee_array st
        = (st, (List.replicate st.n_fee_blocks st.default_fee,
                List.replicate st.n_fee_blocks st.default_fee,
                List.replicate st.n_fee_blocks st.default_fee))) ∧
    (∀ l, st.mempool_blocks_fee = some l → l ≠ [] → st.n_fee_blocks = 5 →
      (∀ b ∈ l, b.feeRange ≠ [] ∧ List.Sorted (fun x y => x ≤ y) b.feeRange) →
      (build_fee_array st).1 = st ∧
      (build_fee_array st).2.1.length = 5 ∧
      (build_fee_array st).2.2.1.length = 5 ∧
      (build_fee_array st).2.2.2.length = 5 ∧
      (∀ i, i < 5 →
        isMinOf ((build_fee_array st).2.1.getD i 0)
          ((l.getD (if i < l.length then i else l.length - 1) dummyBlock).feeRange) ∧
        isMedianOf ((build_fee_array st).2.2.1.getD i 0)
          ((l.getD (if i < l.length then i else l.length - 1) dummyBlock).feeRange) ∧
        isMaxOf ((build_fee_array st).2.2.2.getD i 0)
          ((l.getD (if i < l.length then i else l.length - 1) dummyBlock).feeRange))) := by
  constructor
  · intro h
    rw [build_fee_array, build_fee_array_go_const st (get_fee_data_nodata st h),
      List.length_range]
  · intro l hl hne h5 hfr
    have hfix := build_fee_array_go_fixed st
      (get_fee_data_sorted_fst st l hl hne hfr) (List.range st.n_fee_blocks)
    rw [h5] at hfix
    have hsel : ∀ i : Nat,
        (l.getD (if i < l.length then i else l.length - 1) dummyBlock) ∈ l := by
      intro i
      apply getD_mem
      split
      · assumption
      · cases l with
        | nil => exact absurd rfl hne
        | cons b bs =>
          simp only [List.length_cons]
          omega
    have hbf : build_fee_array st = build_fee_array_go st (List.range 5) := by
      rw [build_fee_array, h5]
    refine ⟨?_, ?_, ?_, ?_, ?_⟩
    · rw [hbf, hfix.1]
    · rw [hbf, hfix.2.1, List.length_map, List.length_range]
    · rw [hbf, hfix.2.2.1, List.length_map, List.length_range]
    · rw [hbf, hfix.2.2.2, List.length_map, List.length_range]
    · intro i hi
      rw [hbf, hfix.2.1, hfix.2.2.1, hfix.2.2.2]
      interval_cases i <;>
        exact ⟨by
            show isMinOf ((get_fee_data_for_block st _).2.1) _
            rw [get_fee_data_sorted_snd st l hl hne]
            exact sorted_headD_min _ (hfr _ (hsel _)).2 (hfr _ (hsel _)).1,
          by
            show isMedianOf ((get_fee_data_for_block st _).2.2.1) _
            rw [get_fee_data_sorted_snd st l hl hne]
            exact median_isMedianOf _,
          by
            show isMaxOf ((get_fee_data_for_block st _).2.2.2) _
            rw [get_fee_data_sorted_snd st l hl hne]
            exact sorted_getLastD_max _ (hfr _ (hsel _)).2 (hfr _ (hsel _)).1⟩

/-- The state used by the C8 witness: the freshly-initialized instance
carrying the three sorted projections of `cexProjections`. -/
def sortedFeeState : FeeState :=
  { initFeeState with mempool_blocks_fee := some cexProjections }

/-- Witness for `build_fee_array_spec`: three stored projections,
`n_fee_blocks = 5`; slots 3 and 4 clamp to the last projection. -/
theorem build_fee_array_spec_witness :
    (sortedFeeState.mempool_blocks_fee = some cexProjections ∧
     cexProjections ≠ [] ∧ sortedFeeState.n_fee_blocks = 5 ∧
     (∀ b ∈ cexProjections, b.feeRange ≠ [] ∧
        List.Sorted (fun x y => x ≤ y) b.feeRange)) ∧
    ((build_fee_array sortedFeeState).1 = sortedFeeState ∧
     (build_fee_array sortedFeeState).2.1.length = 5 ∧
     (build_fee_array sortedFeeState).2.2.1.length = 5 ∧
     (build_fee_array sortedFeeState).2.2.2.length = 5 ∧
     (∀ i, i < 5 →
       isMinOf ((build_fee_array sortedFeeState).2.1.getD i 0)
         ((cexProjections.getD (if i < cexProjections.length then i
             else cexProjections.length - 1) dummyBlock).feeRange) ∧
       isMedianOf ((build_fee_array sortedFeeState).2.2.1.getD i 0)
         ((cexProjections.getD (if i < cexProjections.length then i
             else cexProjections.length - 1) dummyBlock).feeRange) ∧
       isMaxOf ((build_fee_array sortedFeeState).2.2.2.getD i 0)
         ((cexProjections.getD (if i < cexProjections.length then i
             else cexProjections.length - 1) dummyBlock).feeRange))) :=
  ⟨⟨rfl, by decide, rfl, by decide⟩,
    (build_fee_array_spec sortedFeeState).2 cexProjections rfl (by decide) rfl (by decide)⟩

end Pymempool
